/-
Verification of the cricket-cost-splitter ledger computation.

This file gives a shallow embedding, in Lean 4, of the data model and the
arithmetic/ledger functions of the cricket-cost-splitter application
(src/types.ts, src/utils/calculations.ts, src/utils/storage.ts, and the
inline ledger logic of the PaymentTable and ConsolidatedDashboard
components), and proves properties of those functions.

Modelling conventions:
- JavaScript numbers carrying money amounts are modelled as rationals (ℚ),
  so division is exact and total (x / 0 = 0 in ℚ, matching the guarded
  behaviour of the code, which never divides by zero on a reachable path).
- Strings (ids, names, phone numbers) are Lean Strings.
- Optional fields of the TypeScript interfaces become Option types.
- `yyyy-MM-dd` date strings handled by date-fns parse/format become a
  civil-date triple (year, month, day); date-fns `addDays` becomes exact
  day-number arithmetic on the proleptic Gregorian calendar.
- Array.prototype.forEach loops mutating an accumulator become List.foldl.
- Functions producing fresh UUIDs take the fresh id as an explicit argument.
-/
import Mathlib

set_option linter.unusedVariables false

/-! ## Data model (src/types.ts) -/

/-- The `Payment.status` field: `'paid' | 'pending' | 'partial'`.
The `'partial'` literal is rendered as the constructor `partPaid`. -/
inductive PaymentStatus where
  | paid
  | pending
  | partPaid
deriving DecidableEq, Repr

/-- The `interface Payment` from src/types.ts. -/
structure Payment where
  id : String
  playerId : String
  matchId : String
  amountDue : ℚ
  amountPaid : ℚ
  status : PaymentStatus
  date : String
deriving DecidableEq, Repr

/-- The `Match.club` field: `'MICC' | 'Sadhooz'`. -/
inductive Club where
  | MICC
  | Sadhooz
deriving DecidableEq, Repr

/-- The `Match.type` field: `'Saturday' | 'Sunday' | 'Weekday'`. -/
inductive MatchType where
  | Saturday
  | Sunday
  | Weekday
deriving DecidableEq, Repr

/-- The `interface Match` from src/types.ts. -/
structure Match where
  id : String
  date : String
  club : Club
  type : MatchType
  groundCost : ℚ
  cafeteriaCost : ℚ
  playerIds : List String
  payments : List Payment
deriving DecidableEq, Repr

/-- The `interface Player` from src/types.ts. -/
structure Player where
  id : String
  firstName : String
  lastName : Option String := none
  nickname : Option String := none
  mobile : String
  balance : ℚ
  arrears : Option ℚ := none
  advancePayment : Option ℚ := none
  regular : Option Bool := none
deriving DecidableEq, Repr

/-- A civil (proleptic Gregorian) calendar date, the model of the
`yyyy-MM-dd` strings that `Weekend.startDate` holds. -/
structure CivilDate where
  year : Nat
  month : Nat
  day : Nat
deriving DecidableEq, Repr

/-- The `interface Weekend` from src/types.ts. -/
structure Weekend where
  id : String
  startDate : CivilDate
  saturdayMatch : Option Match := none
  sundayMatch : Option Match := none
  weekdayMatches : List Match
deriving DecidableEq, Repr

/-- The `interface AppData` from src/types.ts. -/
structure AppData where
  players : List Player
  weekends : List Weekend
  currentWeekendId : String
deriving DecidableEq, Repr

/-! ## src/utils/calculations.ts -/

/-- The `calculateMatchCostPerPlayer`: zero participants yields 0, otherwise
`(groundCost + cafeteriaCost) / playerIds.length`. -/
def calculateMatchCostPerPlayer (m : Match) : ℚ :=
  if m.playerIds.length = 0 then 0
  else (m.groundCost + m.cafeteriaCost) / m.playerIds.length

/-- The `calculatePlayerDue`: 0 for a non-participant, else the per-head cost. -/
def calculatePlayerDue (m : Match) (playerId : String) : ℚ :=
  if playerId ∈ m.playerIds then calculateMatchCostPerPlayer m else 0

/-- The `getPlayerPayment`: `match.payments.find(p => p.playerId === playerId)`. -/
def getPlayerPayment (m : Match) (playerId : String) : Option Payment :=
  m.payments.find? (fun p => p.playerId == playerId)

/-- The `calculatePlayerBalance` from src/utils/calculations.ts: starting from the
player's stored balance, a forEach over `allMatches` adds
`amountPaid - due` when a payment record exists, and adds `due` when the
player is listed as a participant but has no payment record. -/
def calculatePlayerBalance (player : Player) (allMatches : List Match) : ℚ :=
  allMatches.foldl (fun balance m =>
    match getPlayerPayment m player.id with
    | some payment => balance + (payment.amountPaid - calculatePlayerDue m player.id)
    | none =>
      if player.id ∈ m.playerIds then balance + calculatePlayerDue m player.id
      else balance)
    player.balance

/-- The `updatePaymentStatus`: derive the three-valued status from
`amountPaid` vs `amountDue`. -/
def updatePaymentStatus (payment : Payment) : Payment :=
  if payment.amountPaid = 0 then { payment with status := .pending }
  else if payment.amountPaid ≥ payment.amountDue then { payment with status := .paid }
  else { payment with status := .partPaid }

/-- The `markAsPaid`: set `amountPaid` to the full due and the status to paid. -/
def markAsPaid (payment : Payment) : Payment :=
  { payment with amountPaid := payment.amountDue, status := .paid }

/-- The `markAsUnpaid`: zero `amountPaid` and set the status to pending. -/
def markAsUnpaid (payment : Payment) : Payment :=
  { payment with amountPaid := 0, status := .pending }

/-- The `setPartialPayment`: overwrite `amountPaid` with `amount` and re-derive
the status. -/
def setPartialPayment (payment : Payment) (amount : ℚ) : Payment :=
  updatePaymentStatus { payment with amountPaid := amount }

/-! ## Civil-date arithmetic (model of date-fns parse / addDays / format)

`Weekend.startDate` is a `yyyy-MM-dd` string; `getNextWeekend` parses it,
adds 7 days and formats the result back. We model a date as its day number
in the proleptic Gregorian calendar (day 0 = 0000-03-01, the standard
days-from-civil construction), so that adding days is addition on ℕ. -/

/-- Day number of a civil date (days since 0000-03-01). -/
def daysFromCivil (date : CivilDate) : Nat :=
  let y := if date.month ≤ 2 then date.year - 1 else date.year
  let era := y / 400
  let yoe := y % 400
  let mp := if 2 < date.month then date.month - 3 else date.month + 9
  let doy := (153 * mp + 2) / 5 + date.day - 1
  let doe := yoe * 365 + yoe / 4 - yoe / 100 + doy
  era * 146097 + doe

/-- Day-of-era component of the day number `n`. -/
def cfdDoe (n : Nat) : Nat := n % 146097

/-- Year-of-era of the day `cfdDoe n` within its 400-year era. -/
def cfdYoe (n : Nat) : Nat :=
  (cfdDoe n - cfdDoe n / 1460 + cfdDoe n / 36524 - cfdDoe n / 146096) / 365

/-- Day-of-year (March-based) of the day number `n`. -/
def cfdDoy (n : Nat) : Nat :=
  cfdDoe n - (365 * cfdYoe n + cfdYoe n / 4 - cfdYoe n / 100)

/-- March-based month index ∈ [0,11] of the day number `n`. -/
def cfdMp (n : Nat) : Nat := (5 * cfdDoy n + 2) / 153

/-- Day-of-month of the day number `n`. -/
def cfdD (n : Nat) : Nat := cfdDoy n - (153 * cfdMp n + 2) / 5 + 1

/-- Calendar month ∈ [1,12] of the day number `n`. -/
def cfdM (n : Nat) : Nat := if cfdMp n < 10 then cfdMp n + 3 else cfdMp n - 9

/-- March-based year of the day number `n`. -/
def cfdY (n : Nat) : Nat := cfdYoe n + (n / 146097) * 400

/-- Civil date of a day number (inverse of `daysFromCivil` on valid dates). -/
def civilFromDays (n : Nat) : CivilDate :=
  ⟨if cfdM n ≤ 2 then cfdY n + 1 else cfdY n, cfdM n, cfdD n⟩

/-- date-fns `addDays` on a parsed `yyyy-MM-dd` date. -/
def addDays (date : CivilDate) (n : Nat) : CivilDate :=
  civilFromDays (daysFromCivil date + n)

/-! ## src/utils/storage.ts -/

/-- The `getNextWeekend` from src/utils/storage.ts: a fresh weekend (fresh uuid
passed explicitly) anchored 7 days after the given weekend's start date,
with no matches. -/
def getNextWeekend (freshId : String) (currentWeekend : Weekend) : Weekend :=
  { id := freshId
    startDate := addDays currentWeekend.startDate 7
    weekdayMatches := [] }

/-! ## Shared component helpers

Both dashboard components (PaymentTable and ConsolidatedDashboard) define the
same `getCurrentWeekend`, `getWeekendMatches` helpers and the same
previous-balance forEach loop inside `calculatePlayerPaymentRow`; they are
embedded once here. -/

/-- The `getCurrentWeekend`: `appData.weekends.find(w => w.id === appData.currentWeekendId)`. -/
def getCurrentWeekend (appData : AppData) : Option Weekend :=
  appData.weekends.find? (fun w => w.id == appData.currentWeekendId)

/-- The `getWeekendMatches`: the Saturday match (when present), then the Sunday
match (when present), then the weekday matches. -/
def getWeekendMatches (weekend : Weekend) : List Match :=
  weekend.saturdayMatch.toList ++ weekend.sundayMatch.toList ++ weekend.weekdayMatches

/-- The previous-balance forEach loop of `calculatePlayerPaymentRow`
(PaymentTable and ConsolidatedDashboard have the identical loop): starting
from `player.balance`, for each historical match add
`amountDue - amountPaid` of the player's payment record when one exists,
else the per-head cost when the player is listed as a participant. -/
def calculatePrevBalance (player : Player) (previousMatches : List Match) : ℚ :=
  previousMatches.foldl (fun prevBalance m =>
    match getPlayerPayment m player.id with
    | some payment => prevBalance + (payment.amountDue - payment.amountPaid)
    | none =>
      if player.id ∈ m.playerIds then
        prevBalance + (m.groundCost + m.cafeteriaCost) / m.playerIds.length
      else prevBalance)
    player.balance

namespace PaymentTable

/-- The `interface PlayerPaymentRow` of the PaymentTable component. -/
structure PlayerPaymentRow where
  player : Player
  prevBalance : ℚ
  saturdayPayment : Option Payment := none
  sundayPayment : Option Payment := none
  weekdayPayments : List Payment
  amountPaid : ℚ
  totalDue : ℚ
  currentBalance : ℚ
  status : PaymentStatus
deriving DecidableEq, Repr

/-- The `calculatePlayerPaymentRow` of the PaymentTable component: previous
balance replayed over all non-current weekends, Saturday/Sunday/weekday
payments of the current weekend, their totals, and the aggregate status
(paid if every current payment is paid, partial if any is paid or partial,
pending otherwise). -/
def calculatePlayerPaymentRow (appData : AppData) (player : Player) : PlayerPaymentRow :=
  match getCurrentWeekend appData with
  | none =>
    { player := player, prevBalance := 0, amountPaid := 0, totalDue := 0
      currentBalance := 0, status := .pending, weekdayPayments := [] }
  | some currentWeekend =>
    let previousWeekends := appData.weekends.filter (fun w => w.id != currentWeekend.id)
    let previousMatches := (previousWeekends.map getWeekendMatches).flatten
    let prevBalance := calculatePrevBalance player previousMatches
    let saturdayPayment := currentWeekend.saturdayMatch.bind
      (fun m => getPlayerPayment m player.id)
    let sundayPayment := currentWeekend.sundayMatch.bind
      (fun m => getPlayerPayment m player.id)
    let weekdayPayments := currentWeekend.weekdayMatches.filterMap
      (fun m => getPlayerPayment m player.id)
    let allCurrentPayments := saturdayPayment.toList ++ sundayPayment.toList ++ weekdayPayments
    let amountPaid := (allCurrentPayments.map Payment.amountPaid).sum
    let totalDue := (allCurrentPayments.map Payment.amountDue).sum
    let currentBalance := prevBalance + (totalDue - amountPaid)
    let status : PaymentStatus :=
      if allCurrentPayments.length > 0 then
        if allCurrentPayments.all (fun p => p.status == .paid) then .paid
        else if allCurrentPayments.any
            (fun p => p.status == .paid || p.status == .partPaid) then .partPaid
        else .pending
      else .pending
    { player := player, prevBalance := prevBalance
      saturdayPayment := saturdayPayment, sundayPayment := sundayPayment
      weekdayPayments := weekdayPayments, amountPaid := amountPaid
      totalDue := totalDue, currentBalance := currentBalance, status := status }

end PaymentTable

namespace ConsolidatedDashboard

/-- The `interface PlayerPaymentRow` of the ConsolidatedDashboard component
(no weekday payments field). -/
structure PlayerPaymentRow where
  player : Player
  prevBalance : ℚ
  saturdayPayment : Option Payment := none
  sundayPayment : Option Payment := none
  amountPaid : ℚ
  totalDue : ℚ
  currentBalance : ℚ
  status : PaymentStatus
deriving DecidableEq, Repr

/-- The `calculatePlayerPaymentRow` of the ConsolidatedDashboard component:
previous balance replayed over all non-current weekends, Saturday/Sunday
payments only, and a status derived from the sign of the total balance
(paid when `currentBalance ≤ 0`, partial when some amount was paid,
pending otherwise). -/
def calculatePlayerPaymentRow (appData : AppData) (player : Player) : PlayerPaymentRow :=
  match getCurrentWeekend appData with
  | none =>
    { player := player, prevBalance := 0, amountPaid := 0, totalDue := 0
      currentBalance := 0, status := .pending }
  | some currentWeekend =>
    let previousWeekends := appData.weekends.filter (fun w => w.id != currentWeekend.id)
    let previousMatches := (previousWeekends.map getWeekendMatches).flatten
    let prevBalance := calculatePrevBalance player previousMatches
    let saturdayPayment := currentWeekend.saturdayMatch.bind
      (fun m => getPlayerPayment m player.id)
    let sundayPayment := currentWeekend.sundayMatch.bind
      (fun m => getPlayerPayment m player.id)
    let allCurrentPayments := saturdayPayment.toList ++ sundayPayment.toList
    let amountPaid := (allCurrentPayments.map Payment.amountPaid).sum
    let totalDue := (allCurrentPayments.map Payment.amountDue).sum
    let currentBalance := prevBalance + (totalDue - amountPaid)
    let status : PaymentStatus :=
      if currentBalance ≤ 0 then .paid
      else if amountPaid > 0 then .partPaid
      else .pending
    { player := player, prevBalance := prevBalance
      saturdayPayment := saturdayPayment, sundayPayment := sundayPayment
      amountPaid := amountPaid, totalDue := totalDue
      currentBalance := currentBalance, status := status }

/-- The `handleNextWeekend`: append the freshly created next weekend and move the
current-weekend pointer to it; a no-op when no current weekend exists. -/
def handleNextWeekend (appData : AppData) (freshId : String) : AppData :=
  match getCurrentWeekend appData with
  | none => appData
  | some currentWeekend =>
    let nextWeekend := getNextWeekend freshId currentWeekend
    { appData with
      weekends := appData.weekends ++ [nextWeekend]
      currentWeekendId := nextWeekend.id }

/-- One iteration of the forEach in `handleOverallPaymentToggle`: write
`updatedPayment` (already computed from `payment`) over the player's payments
in the Saturday match and then the Sunday match of the accumulated weekend,
each guarded the way the source guards it (match present, the payment belongs
to the player, and the match's own payment record for the player has the same
id as the payment being processed). -/
def applyToggleUpdate (playerId : String) (updatedPayment payment : Payment)
    (uw : Weekend) : Weekend :=
  let uw1 : Weekend :=
    match uw.saturdayMatch with
    | some sm =>
      if payment.playerId == playerId then
        match sm.payments.find? (fun p => p.playerId == playerId) with
        | some satPayment =>
          if satPayment.id == payment.id then
            { uw with saturdayMatch := some { sm with
                payments := sm.payments.map (fun p =>
                  if p.playerId == playerId then updatedPayment else p) } }
          else uw
        | none => uw
      else uw
    | none => uw
  match uw1.sundayMatch with
  | some sm =>
    if payment.playerId == playerId then
      match sm.payments.find? (fun p => p.playerId == playerId) with
      | some sunPayment =>
        if sunPayment.id == payment.id then
          { uw1 with sundayMatch := some { sm with
              payments := sm.payments.map (fun p =>
                if p.playerId == playerId then updatedPayment else p) } }
        else uw1
      | none => uw1
    else uw1
  | none => uw1

/-- The `handleOverallPaymentToggle`: for one player in the current weekend,
either zero all current Saturday/Sunday payments and fold the current balance
into the player's base balance (when the aggregate status is paid), or mark
them fully paid and zero the base balance (otherwise). Returns `none` for the
non-null assertion failure when the player id is unknown, and the unchanged
state when no current weekend exists (the source returns early without
calling `onAppDataUpdate`). -/
def handleOverallPaymentToggle (appData : AppData) (playerId : String) :
    Option AppData :=
  match getCurrentWeekend appData with
  | none => some appData
  | some currentWeekend =>
    match appData.players.find? (fun p => p.id == playerId) with
    | none => none
    | some player =>
      let playerRow := calculatePlayerPaymentRow appData player
      let isCurrentlyPaid := playerRow.status == PaymentStatus.paid
      let saturdayPayment := currentWeekend.saturdayMatch.bind
        (fun m => getPlayerPayment m playerId)
      let sundayPayment := currentWeekend.sundayMatch.bind
        (fun m => getPlayerPayment m playerId)
      let allCurrentPayments := saturdayPayment.toList ++ sundayPayment.toList
      if isCurrentlyPaid then
        let updatedWeekend := allCurrentPayments.foldl
          (fun uw payment =>
            applyToggleUpdate playerId
              { payment with amountPaid := 0, status := .pending } payment uw)
          currentWeekend
        some { appData with
          weekends := appData.weekends.map
            (fun w => if w.id == currentWeekend.id then updatedWeekend else w)
          players := appData.players.map (fun p =>
            if p.id == playerId then { p with balance := playerRow.currentBalance }
            else p) }
      else
        let updatedWeekend := allCurrentPayments.foldl
          (fun uw payment =>
            applyToggleUpdate playerId
              { payment with amountPaid := payment.amountDue, status := .paid }
              payment uw)
          currentWeekend
        some { appData with
          weekends := appData.weekends.map
            (fun w => if w.id == currentWeekend.id then updatedWeekend else w)
          players := appData.players.map (fun p =>
            if p.id == playerId then { p with balance := 0 } else p) }

end ConsolidatedDashboard

/-- The weekend produced by the mark-paid path of the bulk toggle: fold the
per-payment update over the player's Saturday/Sunday payments. -/
def ConsolidatedDashboard.markPaidFold (cw : Weekend) (playerId : String) : Weekend :=
  ((cw.saturdayMatch.bind (fun m => getPlayerPayment m playerId)).toList ++
   (cw.sundayMatch.bind (fun m => getPlayerPayment m playerId)).toList).foldl
    (fun uw payment =>
      ConsolidatedDashboard.applyToggleUpdate playerId
        { payment with amountPaid := payment.amountDue, status := .paid }
        payment uw)
    cw

/-! ## Spec-side and sample definitions used by the claim theorems -/

/-- The per-match contribution as the specification words it: the delta
`amountDue - amountPaid` of the player's payment record when one exists,
else the per-head cost when the player is a listed participant, else 0. -/
def specPrevDelta (player : Player) (m : Match) : ℚ :=
  match getPlayerPayment m player.id with
  | some payment => payment.amountDue - payment.amountPaid
  | none => if player.id ∈ m.playerIds then calculateMatchCostPerPlayer m else 0

/-- The per-match contribution of `calculatePlayerBalance` (the replay in
src/utils/calculations.ts). -/
def balanceDelta (player : Player) (m : Match) : ℚ :=
  match getPlayerPayment m player.id with
  | some payment => payment.amountPaid - calculatePlayerDue m player.id
  | none => if player.id ∈ m.playerIds then calculatePlayerDue m player.id else 0

/-- A sample player with a nonzero base balance. -/
def samplePlayerA : Player :=
  { id := "A", firstName := "Sai", mobile := "9999999999", balance := 10 }

/-- A sample match in which player A has a partial payment record. -/
def sampleMatch1 : Match :=
  { id := "mS", date := "2025-08-23", club := .MICC, type := .Saturday
    groundCost := 300, cafeteriaCost := 150
    playerIds := ["A", "B", "C"]
    payments := [{ id := "p1", playerId := "A", matchId := "mS"
                   amountDue := 150, amountPaid := 100, status := .partPaid
                   date := "2025-08-23" }] }

/-- A sample match in which player A participates without a payment record. -/
def sampleMatch2 : Match :=
  { id := "mT", date := "2025-08-24", club := .Sadhooz, type := .Sunday
    groundCost := 200, cafeteriaCost := 100
    playerIds := ["A", "B"], payments := [] }

/-- The list of a PaymentTable row's current-weekend payments, in the order
the component assembles them (Saturday, Sunday, weekdays). -/
def PaymentTable.PlayerPaymentRow.currents
    (row : PaymentTable.PlayerPaymentRow) : List Payment :=
  row.saturdayPayment.toList ++ row.sundayPayment.toList ++ row.weekdayPayments

/-- A player who overpaid in the past (negative base balance). -/
def c5Player : Player :=
  { id := "B", firstName := "Rahul", mobile := "8888888888", balance := -100 }

/-- A pending Saturday payment of 50 owed by player B. -/
def c5SatPayment : Payment :=
  { id := "pb", playerId := "B", matchId := "ms", amountDue := 50
    amountPaid := 0, status := .pending, date := "2025-08-30" }

/-- A Saturday match in which player B owes 50 and has paid nothing. -/
def c5SatMatch : Match :=
  { id := "ms", date := "2025-08-30", club := .MICC, type := .Saturday
    groundCost := 100, cafeteriaCost := 0
    playerIds := ["B", "C"], payments := [c5SatPayment] }

/-- The current weekend holding only `c5SatMatch`. -/
def c5Weekend : Weekend :=
  { id := "w1", startDate := ⟨2025, 8, 30⟩
    saturdayMatch := some c5SatMatch, weekdayMatches := [] }

/-- App state: one weekend, current, with player B's pending payment. -/
def c5AppData : AppData :=
  { players := [c5Player], weekends := [c5Weekend], currentWeekendId := "w1" }

/-- A player who owes 100 from before. -/
def c2Player : Player :=
  { id := "A", firstName := "Amit", mobile := "7777777777", balance := 100 }

/-- A pending weekday payment of 10 owed by player A. -/
def c2WeekdayPayment : Payment :=
  { id := "pw", playerId := "A", matchId := "mw", amountDue := 10
    amountPaid := 0, status := .pending, date := "2025-09-03" }

/-- A weekday match in which player A owes 10 and has paid nothing. -/
def c2WeekdayMatch : Match :=
  { id := "mw", date := "2025-09-03", club := .MICC, type := .Weekday
    groundCost := 20, cafeteriaCost := 0
    playerIds := ["A", "B"], payments := [c2WeekdayPayment] }

/-- The current weekend with no Saturday/Sunday match and one weekday match. -/
def c2Weekend : Weekend :=
  { id := "w2", startDate := ⟨2025, 8, 30⟩
    weekdayMatches := [c2WeekdayMatch] }

/-- App state: player A owes a weekday payment in the current weekend. -/
def c2AppData : AppData :=
  { players := [c2Player], weekends := [c2Weekend], currentWeekendId := "w2" }

/-- Number of weekends whose id is the current-weekend pointer. -/
def countCurrent (appData : AppData) : Nat :=
  appData.weekends.countP (fun w => w.id == appData.currentWeekendId)

example : addDays ⟨2025, 8, 30⟩ 7 = ⟨2025, 9, 6⟩ := by decide
example : addDays ⟨2025, 12, 27⟩ 7 = ⟨2026, 1, 3⟩ := by decide
example : addDays ⟨2024, 2, 24⟩ 7 = ⟨2024, 3, 2⟩ := by decide
example : addDays ⟨2023, 2, 25⟩ 7 = ⟨2023, 3, 4⟩ := by decide

/-! ## Claim C3: payment status derivation -/

/-- C3: status derivation is `pending` exactly when `amountPaid = 0` (taking
precedence over the paid comparison), `paid` exactly when `amountPaid ≠ 0`
and `amountPaid ≥ amountDue`, `partial` exactly when `amountPaid ≠ 0` and
`amountPaid < amountDue`; and `setPartialPayment` derives the status of the
written amount by the same rule. -/
theorem updatePaymentStatus_spec (payment : Payment) (amount : ℚ) :
    ((updatePaymentStatus payment).status = .pending ↔ payment.amountPaid = 0) ∧
    ((updatePaymentStatus payment).status = .paid ↔
      payment.amountPaid ≠ 0 ∧ payment.amountPaid ≥ payment.amountDue) ∧
    ((updatePaymentStatus payment).status = .partPaid ↔
      payment.amountPaid ≠ 0 ∧ payment.amountPaid < payment.amountDue) ∧
    setPartialPayment payment amount =
      updatePaymentStatus { payment with amountPaid := amount } := by
  refine ⟨?_, ?_, ?_, rfl⟩ <;>
    (unfold updatePaymentStatus; split_ifs with h1 h2 <;> simp_all [not_le])

/-! ## Claim C4: per-head cost is total and guarded -/

/-- C4: the per-player cost computation is total; it returns the combined
cost divided by the participant count when there is at least one participant,
and 0 when there are none. -/
theorem calculateMatchCostPerPlayer_spec (m : Match) :
    (m.playerIds.length = 0 → calculateMatchCostPerPlayer m = 0) ∧
    (1 ≤ m.playerIds.length →
      calculateMatchCostPerPlayer m =
        (m.groundCost + m.cafeteriaCost) / m.playerIds.length) := by
  unfold calculateMatchCostPerPlayer
  constructor
  · intro h
    simp [h]
  · intro h
    have : m.playerIds.length ≠ 0 := by omega
    simp [this]

/-- Witness for C4 at concrete matches: three participants sharing
300 + 150 pay 150 each; a match with no participants costs 0 per head. -/
theorem calculateMatchCostPerPlayer_spec_witness :
    calculateMatchCostPerPlayer
      { id := "m1", date := "2025-08-30", club := .MICC, type := .Saturday
        groundCost := 300, cafeteriaCost := 150
        playerIds := ["A", "B", "C"], payments := [] } = 150 ∧
    calculateMatchCostPerPlayer
      { id := "m0", date := "2025-08-30", club := .MICC, type := .Saturday
        groundCost := 300, cafeteriaCost := 150
        playerIds := [], payments := [] } = 0 := by
  constructor
  · have h := (calculateMatchCostPerPlayer_spec
      { id := "m1", date := "2025-08-30", club := .MICC, type := .Saturday
        groundCost := 300, cafeteriaCost := 150
        playerIds := ["A", "B", "C"], payments := [] }).2 (by decide)
    rw [h]
    norm_num
  · exact (calculateMatchCostPerPlayer_spec
      { id := "m0", date := "2025-08-30", club := .MICC, type := .Saturday
        groundCost := 300, cafeteriaCost := 150
        playerIds := [], payments := [] }).1 (by decide)

/-! ## Claims C1 and C9: the previous-balance replay -/

/-- A foldl whose body adds a per-element amount to the accumulator computes
the initial value plus the sum of the per-element amounts. -/
theorem foldl_add_eq_sum {α : Type} (body : ℚ → α → ℚ) (f : α → ℚ)
    (hb : ∀ b x, body b x = b + f x) :
    ∀ (l : List α) (init : ℚ), l.foldl body init = init + (l.map f).sum := by
  intro l
  induction l with
  | nil => intro init; simp
  | cons x xs ih =>
    intro init
    rw [List.foldl_cons, ih, hb, List.map_cons, List.sum_cons, add_assoc]

/-- C1: for every player and every list of historical matches, the
previous-balance replay returns the player's stored base balance plus, per
match, the payment delta `amountDue - amountPaid` when a payment record
exists, else the per-head cost when the player is listed as a participant,
else 0. -/
theorem calculatePrevBalance_spec (player : Player) (previousMatches : List Match) :
    calculatePrevBalance player previousMatches =
      player.balance + (previousMatches.map (specPrevDelta player)).sum := by
  unfold calculatePrevBalance
  refine foldl_add_eq_sum _ _ ?_ previousMatches player.balance
  intro b m
  unfold specPrevDelta
  cases hp : getPlayerPayment m player.id with
  | some payment => simp
  | none =>
    by_cases hm : player.id ∈ m.playerIds
    · have hlen : m.playerIds.length ≠ 0 := by
        intro h0
        rw [List.length_eq_zero.mp h0] at hm
        exact absurd hm (List.not_mem_nil _)
      simp [hm, calculateMatchCostPerPlayer, hlen]
    · simp [hm]

/-- The `calculatePlayerBalance` is the base balance plus a sum of per-match
deltas. -/
theorem calculatePlayerBalance_eq_sum (player : Player) (allMatches : List Match) :
    calculatePlayerBalance player allMatches =
      player.balance + (allMatches.map (balanceDelta player)).sum := by
  unfold calculatePlayerBalance
  refine foldl_add_eq_sum _ _ ?_ allMatches player.balance
  intro b m
  unfold balanceDelta
  cases hp : getPlayerPayment m player.id with
  | some payment => simp
  | none =>
    by_cases hm : player.id ∈ m.playerIds <;> simp [hm]

/-- C9: the balance replay is order-independent — replaying any permutation
of the historical match list yields the same balance. -/
theorem calculatePlayerBalance_perm (player : Player) (l₁ l₂ : List Match)
    (h : l₁.Perm l₂) :
    calculatePlayerBalance player l₁ = calculatePlayerBalance player l₂ := by
  rw [calculatePlayerBalance_eq_sum, calculatePlayerBalance_eq_sum,
    (h.map (balanceDelta player)).sum_eq]

/-- Witness for C9 at a concrete two-match history and its swap. -/
theorem calculatePlayerBalance_perm_witness :
    [sampleMatch1, sampleMatch2].Perm [sampleMatch2, sampleMatch1] ∧
    calculatePlayerBalance samplePlayerA [sampleMatch1, sampleMatch2] =
      calculatePlayerBalance samplePlayerA [sampleMatch2, sampleMatch1] := by
  have hp : [sampleMatch1, sampleMatch2].Perm [sampleMatch2, sampleMatch1] :=
    List.Perm.swap sampleMatch2 sampleMatch1 []
  exact ⟨hp, calculatePlayerBalance_perm samplePlayerA _ _ hp⟩

/-! ## Claim C8: status derivation is idempotent -/

/-- C8: applying the status derivation to its own result is a no-op. -/
theorem updatePaymentStatus_idem (payment : Payment) :
    updatePaymentStatus (updatePaymentStatus payment) = updatePaymentStatus payment := by
  unfold updatePaymentStatus
  split_ifs <;> simp_all

/-! ## Claim C10: payment mutators only touch `amountPaid` and `status` -/

/-- C10: `markAsPaid`, `markAsUnpaid`, `setPartialPayment` and
`updatePaymentStatus` preserve the `id`, `playerId`, `matchId`, `amountDue`
and `date` fields of their payment argument. -/
theorem payment_mutators_frame (payment : Payment) (amount : ℚ) :
    ((markAsPaid payment).id = payment.id ∧
     (markAsPaid payment).playerId = payment.playerId ∧
     (markAsPaid payment).matchId = payment.matchId ∧
     (markAsPaid payment).amountDue = payment.amountDue ∧
     (markAsPaid payment).date = payment.date) ∧
    ((markAsUnpaid payment).id = payment.id ∧
     (markAsUnpaid payment).playerId = payment.playerId ∧
     (markAsUnpaid payment).matchId = payment.matchId ∧
     (markAsUnpaid payment).amountDue = payment.amountDue ∧
     (markAsUnpaid payment).date = payment.date) ∧
    ((setPartialPayment payment amount).id = payment.id ∧
     (setPartialPayment payment amount).playerId = payment.playerId ∧
     (setPartialPayment payment amount).matchId = payment.matchId ∧
     (setPartialPayment payment amount).amountDue = payment.amountDue ∧
     (setPartialPayment payment amount).date = payment.date) ∧
    ((updatePaymentStatus payment).id = payment.id ∧
     (updatePaymentStatus payment).playerId = payment.playerId ∧
     (updatePaymentStatus payment).matchId = payment.matchId ∧
     (updatePaymentStatus payment).amountDue = payment.amountDue ∧
     (updatePaymentStatus payment).date = payment.date) := by
  unfold markAsPaid markAsUnpaid setPartialPayment updatePaymentStatus
  split_ifs <;> simp_all

set_option maxHeartbeats 4000000 in
/-- The year-of-era formula of `cfdYoe` is sound: the era days consumed by the
computed whole years never exceed the day-of-era, and leave at most 365 days
over (so the day-of-year is in range). This is the combinatorial heart of the
civil-from-days conversion. -/
theorem yoe_bounds (doe : Nat) (h : doe ≤ 146096) :
    365 * ((doe - doe / 1460 + doe / 36524 - doe / 146096) / 365) +
      ((doe - doe / 1460 + doe / 36524 - doe / 146096) / 365) / 4 -
      ((doe - doe / 1460 + doe / 36524 - doe / 146096) / 365) / 100 ≤ doe ∧
    doe - (365 * ((doe - doe / 1460 + doe / 36524 - doe / 146096) / 365) +
      ((doe - doe / 1460 + doe / 36524 - doe / 146096) / 365) / 4 -
      ((doe - doe / 1460 + doe / 36524 - doe / 146096) / 365) / 100) ≤ 365 := by
  set q := doe / 1460 with hq
  have hqle : q ≤ 100 := by omega
  interval_cases q <;>
    first
      | omega
      | (set e := doe / 36524 with he
         have hele : e ≤ 4 := by omega
         interval_cases e <;> omega)

set_option maxHeartbeats 1000000 in
/-- The day-number conversion is a left inverse of the calendar conversion:
converting any day number to a civil date and back is the identity. -/
theorem daysFromCivil_civilFromDays (n : Nat) :
    daysFromCivil (civilFromDays n) = n := by
  have hle : cfdDoe n ≤ 146096 := by unfold cfdDoe; omega
  have hb := yoe_bounds (cfdDoe n) hle
  have hDoe : cfdDoe n = n % 146097 := rfl
  have hYoe : cfdYoe n =
      (cfdDoe n - cfdDoe n / 1460 + cfdDoe n / 36524 - cfdDoe n / 146096) / 365 := rfl
  have hDoy : cfdDoy n = cfdDoe n - (365 * cfdYoe n + cfdYoe n / 4 - cfdYoe n / 100) := rfl
  have hMp : cfdMp n = (5 * cfdDoy n + 2) / 153 := rfl
  have hD : cfdD n = cfdDoy n - (153 * cfdMp n + 2) / 5 + 1 := rfl
  have hM : cfdM n = if cfdMp n < 10 then cfdMp n + 3 else cfdMp n - 9 := rfl
  have hY : cfdY n = cfdYoe n + (n / 146097) * 400 := rfl
  have hy399 : cfdYoe n ≤ 399 := by rw [hYoe]; omega
  have hb1 : 365 * cfdYoe n + cfdYoe n / 4 - cfdYoe n / 100 ≤ cfdDoe n := by
    rw [hYoe]; exact hb.1
  have hb2 : cfdDoy n ≤ 365 := by rw [hDoy, hYoe]; exact hb.2
  clear hb hYoe
  have hmp11 : cfdMp n ≤ 11 := by rw [hMp]; omega
  have hms : (153 * cfdMp n + 2) / 5 ≤ cfdDoy n := by rw [hMp]; omega
  have hera1 : cfdY n / 400 = n / 146097 := by omega
  have hera2 : cfdY n % 400 = cfdYoe n := by omega
  have e2 : (153 * cfdMp n + 2) / 5 + cfdD n - 1 = cfdDoy n := by omega
  unfold daysFromCivil civilFromDays
  dsimp only
  by_cases h10 : cfdMp n < 10
  · rw [if_pos h10] at hM
    have e3 : ¬ (cfdM n ≤ 2) := by omega
    have e4 : 2 < cfdM n := by omega
    simp only [if_neg e3, if_pos e4]
    have e1 : cfdM n - 3 = cfdMp n := by omega
    rw [e1, e2, hera1, hera2]
    omega
  · rw [if_neg h10] at hM
    have e3 : cfdM n ≤ 2 := by omega
    have e4 : ¬ (2 < cfdM n) := by omega
    simp only [if_pos e3, if_neg e4, Nat.add_sub_cancel]
    have e1 : cfdM n + 9 = cfdMp n := by omega
    rw [e1, e2, hera1, hera2]
    omega

/-! ## Claim C5: aggregate player status (two dashboard variants) -/

/-- Characterization of the PaymentTable aggregate-status rule as a pure
function of the current-payment list. -/
theorem aggregateStatusRule_iff (l : List Payment) :
    (((if l.length > 0 then
        if l.all (fun p => p.status == PaymentStatus.paid) then PaymentStatus.paid
        else if l.any (fun p =>
            p.status == PaymentStatus.paid || p.status == PaymentStatus.partPaid) then
          PaymentStatus.partPaid
        else PaymentStatus.pending
      else PaymentStatus.pending) = PaymentStatus.paid ↔
      l ≠ [] ∧ ∀ p ∈ l, p.status = PaymentStatus.paid) ∧
     ((if l.length > 0 then
        if l.all (fun p => p.status == PaymentStatus.paid) then PaymentStatus.paid
        else if l.any (fun p =>
            p.status == PaymentStatus.paid || p.status == PaymentStatus.partPaid) then
          PaymentStatus.partPaid
        else PaymentStatus.pending
      else PaymentStatus.pending) = PaymentStatus.partPaid ↔
      ¬ (l ≠ [] ∧ ∀ p ∈ l, p.status = PaymentStatus.paid) ∧
      ∃ p ∈ l, p.status = PaymentStatus.paid ∨ p.status = PaymentStatus.partPaid) ∧
     ((if l.length > 0 then
        if l.all (fun p => p.status == PaymentStatus.paid) then PaymentStatus.paid
        else if l.any (fun p =>
            p.status == PaymentStatus.paid || p.status == PaymentStatus.partPaid) then
          PaymentStatus.partPaid
        else PaymentStatus.pending
      else PaymentStatus.pending) = PaymentStatus.pending ↔
      ¬ (l ≠ [] ∧ ∀ p ∈ l, p.status = PaymentStatus.paid) ∧
      ¬ ∃ p ∈ l, p.status = PaymentStatus.paid ∨
        p.status = PaymentStatus.partPaid)) := by
  split_ifs with h1 h2 h3 <;>
    simp_all [List.all_eq_true, List.any_eq_true, List.length_pos, not_or] <;>
    exact List.exists_mem_of_ne_nil _ h1

/-- Characterization of the ConsolidatedDashboard balance-sign status rule. -/
theorem balanceStatusRule_iff (bal amtPaid : ℚ) :
    (((if bal ≤ 0 then PaymentStatus.paid
       else if amtPaid > 0 then PaymentStatus.partPaid
       else PaymentStatus.pending) = PaymentStatus.paid ↔ bal ≤ 0) ∧
     ((if bal ≤ 0 then PaymentStatus.paid
       else if amtPaid > 0 then PaymentStatus.partPaid
       else PaymentStatus.pending) = PaymentStatus.partPaid ↔
        0 < bal ∧ 0 < amtPaid) ∧
     ((if bal ≤ 0 then PaymentStatus.paid
       else if amtPaid > 0 then PaymentStatus.partPaid
       else PaymentStatus.pending) = PaymentStatus.pending ↔
        0 < bal ∧ amtPaid ≤ 0)) := by
  split_ifs with h1 h2 <;> simp_all [not_le, not_lt, le_of_lt]

/-- C5 (amended): the PaymentTable aggregation is paid exactly when there is
at least one current payment and all are paid, partial exactly when that
fails but some current payment is paid or partial, pending otherwise; the
ConsolidatedDashboard aggregation instead derives the status from the sign
of the balance: paid exactly when `currentBalance ≤ 0`, partial exactly when
the balance is positive and some amount was paid, pending otherwise. -/
theorem aggregate_status_spec (appData : AppData) (player : Player) :
    (((PaymentTable.calculatePlayerPaymentRow appData player).status = .paid ↔
      (PaymentTable.calculatePlayerPaymentRow appData player).currents ≠ [] ∧
      ∀ p ∈ (PaymentTable.calculatePlayerPaymentRow appData player).currents,
        p.status = .paid) ∧
     ((PaymentTable.calculatePlayerPaymentRow appData player).status = .partPaid ↔
      ¬ ((PaymentTable.calculatePlayerPaymentRow appData player).currents ≠ [] ∧
         ∀ p ∈ (PaymentTable.calculatePlayerPaymentRow appData player).currents,
           p.status = .paid) ∧
      ∃ p ∈ (PaymentTable.calculatePlayerPaymentRow appData player).currents,
        p.status = .paid ∨ p.status = .partPaid) ∧
     ((PaymentTable.calculatePlayerPaymentRow appData player).status = .pending ↔
      ¬ ((PaymentTable.calculatePlayerPaymentRow appData player).currents ≠ [] ∧
         ∀ p ∈ (PaymentTable.calculatePlayerPaymentRow appData player).currents,
           p.status = .paid) ∧
      ¬ ∃ p ∈ (PaymentTable.calculatePlayerPaymentRow appData player).currents,
        p.status = .paid ∨ p.status = .partPaid)) ∧
    ((getCurrentWeekend appData).isSome →
     ((ConsolidatedDashboard.calculatePlayerPaymentRow appData player).status = .paid ↔
      (ConsolidatedDashboard.calculatePlayerPaymentRow appData player).currentBalance ≤ 0) ∧
     ((ConsolidatedDashboard.calculatePlayerPaymentRow appData player).status = .partPaid ↔
      0 < (ConsolidatedDashboard.calculatePlayerPaymentRow appData player).currentBalance ∧
      0 < (ConsolidatedDashboard.calculatePlayerPaymentRow appData player).amountPaid) ∧
     ((ConsolidatedDashboard.calculatePlayerPaymentRow appData player).status = .pending ↔
      0 < (ConsolidatedDashboard.calculatePlayerPaymentRow appData player).currentBalance ∧
      (ConsolidatedDashboard.calculatePlayerPaymentRow appData player).amountPaid ≤ 0)) := by
  constructor
  · unfold PaymentTable.calculatePlayerPaymentRow
    cases hcw : getCurrentWeekend appData with
    | none => exact aggregateStatusRule_iff []
    | some cw => exact aggregateStatusRule_iff _
  · unfold ConsolidatedDashboard.calculatePlayerPaymentRow
    cases hcw : getCurrentWeekend appData with
    | none => intro hsome; simp at hsome
    | some cw => intro hsome; exact balanceStatusRule_iff _ _

/-- Counterexample to C5 as stated: in the ConsolidatedDashboard, a player
who overpaid historically is shown as paid even though the one current
payment is pending. -/
theorem aggregate_status_counterexample :
    (ConsolidatedDashboard.calculatePlayerPaymentRow c5AppData c5Player).status = .paid ∧
    (ConsolidatedDashboard.calculatePlayerPaymentRow c5AppData c5Player).saturdayPayment =
      some c5SatPayment ∧
    c5SatPayment.status ≠ .paid := by
  refine ⟨?_, rfl, by decide⟩
  unfold ConsolidatedDashboard.calculatePlayerPaymentRow
  rw [show getCurrentWeekend c5AppData = some c5Weekend from rfl]
  dsimp only
  split_ifs with h1 h2
  · rfl
  all_goals
    exfalso
    apply h1
    show (-100 : ℚ) + ((50 + 0) - (0 + 0)) ≤ 0
    norm_num

/-- Witness for the amended C5 at the concrete state `c5AppData`. -/
theorem aggregate_status_spec_witness :
    (getCurrentWeekend c5AppData).isSome ∧
    ((ConsolidatedDashboard.calculatePlayerPaymentRow c5AppData c5Player).status = .paid ↔
     (ConsolidatedDashboard.calculatePlayerPaymentRow c5AppData c5Player).currentBalance ≤ 0) :=
  ⟨by decide, ((aggregate_status_spec c5AppData c5Player).2 (by decide)).1⟩

/-! ## Claim C6: the period advancer -/

/-- C6: advancing anchors the new period exactly 7 days (in day numbers)
after the previous period's anchor; in particular a period anchored
2025-08-30 advances to one anchored 2025-09-06. -/
theorem getNextWeekend_spec (freshId : String) (w : Weekend) :
    daysFromCivil (getNextWeekend freshId w).startDate =
      daysFromCivil w.startDate + 7 ∧
    (getNextWeekend "w1-next"
        { id := "w0", startDate := ⟨2025, 8, 30⟩, weekdayMatches := [] }).startDate =
      ⟨2025, 9, 6⟩ := by
  constructor
  · show daysFromCivil (civilFromDays (daysFromCivil w.startDate + 7)) = _
    exact daysFromCivil_civilFromDays _
  · decide

/-! ## Claim C7: advancing preserves history and the one-current invariant -/

/-- C7: when exactly one weekend is current and the fresh id is genuinely
fresh, advancing appends one empty weekend (no Saturday match, no Sunday
match, no weekday matches), repoints the current-weekend pointer to it,
leaves the players and all existing weekends unchanged, and afterwards
exactly one weekend is current. -/
theorem handleNextWeekend_spec (appData : AppData) (freshId : String)
    (hone : countCurrent appData = 1)
    (hfresh : ∀ w ∈ appData.weekends, w.id ≠ freshId) :
    ∃ cw, getCurrentWeekend appData = some cw ∧
      ConsolidatedDashboard.handleNextWeekend appData freshId =
        { players := appData.players
          weekends := appData.weekends ++ [getNextWeekend freshId cw]
          currentWeekendId := freshId } ∧
      (getNextWeekend freshId cw).saturdayMatch = none ∧
      (getNextWeekend freshId cw).sundayMatch = none ∧
      (getNextWeekend freshId cw).weekdayMatches = [] ∧
      countCurrent (ConsolidatedDashboard.handleNextWeekend appData freshId) = 1 := by
  have hpos : 0 < appData.weekends.countP
      (fun w => w.id == appData.currentWeekendId) := by
    unfold countCurrent at hone; omega
  have hex := List.countP_pos.mp hpos
  have hfind : (appData.weekends.find?
      (fun w => w.id == appData.currentWeekendId)).isSome := by
    rw [List.find?_isSome]
    obtain ⟨w, hw, hpw⟩ := hex
    exact ⟨w, hw, hpw⟩
  obtain ⟨cw, hcw⟩ := Option.isSome_iff_exists.mp hfind
  have hcw' : getCurrentWeekend appData = some cw := hcw
  refine ⟨cw, hcw', ?_, rfl, rfl, rfl, ?_⟩
  · unfold ConsolidatedDashboard.handleNextWeekend
    rw [hcw']
    rfl
  · unfold ConsolidatedDashboard.handleNextWeekend
    rw [hcw']
    unfold countCurrent
    dsimp only
    rw [show (getNextWeekend freshId cw).id = freshId from rfl]
    rw [List.countP_append]
    have h0 : appData.weekends.countP (fun w => w.id == freshId) = 0 := by
      rw [List.countP_eq_zero]
      intro w hw
      simpa using hfresh w hw
    simp [h0, getNextWeekend]

/-- Witness for C7 at the concrete state `c5AppData` with fresh id "w9". -/
theorem handleNextWeekend_spec_witness :
    countCurrent c5AppData = 1 ∧ (∀ w ∈ c5AppData.weekends, w.id ≠ "w9") ∧
    ∃ cw, getCurrentWeekend c5AppData = some cw ∧
      ConsolidatedDashboard.handleNextWeekend c5AppData "w9" =
        { players := c5AppData.players
          weekends := c5AppData.weekends ++ [getNextWeekend "w9" cw]
          currentWeekendId := "w9" } ∧
      (getNextWeekend "w9" cw).saturdayMatch = none ∧
      (getNextWeekend "w9" cw).sundayMatch = none ∧
      (getNextWeekend "w9" cw).weekdayMatches = [] ∧
      countCurrent (ConsolidatedDashboard.handleNextWeekend c5AppData "w9") = 1 :=
  ⟨by decide, by decide, handleNextWeekend_spec c5AppData "w9" (by decide) (by decide)⟩

/-! ## Claim C2 support -/

/-- A found payment belongs to the player searched for. -/
theorem getPlayerPayment_playerId {m : Match} {pid : String} {p : Payment}
    (h : getPlayerPayment m pid = some p) : p.playerId = pid := by
  unfold getPlayerPayment at h
  simpa using List.find?_some h

/-- After substituting a fully-paid payment over a player's entries, every
entry of the player is fully paid. -/
theorem mem_map_subst_paid (payments : List Payment) (upd : Payment)
    (pid : String) (hpaid : upd.amountPaid = upd.amountDue)
    (hstat : upd.status = PaymentStatus.paid) :
    ∀ p ∈ payments.map (fun q => if q.playerId == pid then upd else q),
      p.playerId = pid → p.amountPaid = p.amountDue ∧ p.status = PaymentStatus.paid := by
  intro p hp hpid
  obtain ⟨q, hq, hqe⟩ := List.mem_map.mp hp
  by_cases hqp : (q.playerId == pid) = true
  · rw [if_pos hqp] at hqe
    rw [← hqe]
    exact ⟨hpaid, hstat⟩
  · rw [if_neg hqp] at hqe
    rw [← hqe] at hpid
    exact absurd (beq_iff_eq.mpr hpid) hqp

/-- If the player has no payment record in a list, no entry is theirs. -/
theorem no_pid_payment {payments : List Payment} {pid : String}
    (h : payments.find? (fun p => p.playerId == pid) = none) :
    ∀ p ∈ payments, p.playerId ≠ pid := by
  intro p hp hpe
  have := List.find?_eq_none.mp h p hp
  simp [hpe] at this

/-- Substituting over a player's entries turns the first found entry into
the substitute. -/
theorem find?_map_subst (payments : List Payment) (upd : Payment) (pid : String)
    (hupd : upd.playerId = pid) (q : Payment)
    (hq : payments.find? (fun p => p.playerId == pid) = some q) :
    (payments.map (fun p => if p.playerId == pid then upd else p)).find?
      (fun p => p.playerId == pid) = some upd := by
  induction payments with
  | nil => simp at hq
  | cons a l ih =>
    by_cases ha : (a.playerId == pid) = true
    · have hu : (upd.playerId == pid) = true := by simpa using hupd
      simp only [List.map_cons, if_pos ha, List.find?, hu]
    · have ha' : (a.playerId == pid) = false := by simpa using ha
      simp only [List.find?, ha'] at hq
      simp only [List.map_cons, if_neg ha]
      simp only [List.find?, ha']
      exact ih hq

/-- The mark-paid fold touches neither the weekend identity nor the weekday
matches, and afterwards every Saturday/Sunday payment of the player is fully
paid. -/
theorem markPaidFold_spec (cw : Weekend) (playerId : String) :
    (ConsolidatedDashboard.markPaidFold cw playerId).id = cw.id ∧
    (ConsolidatedDashboard.markPaidFold cw playerId).startDate = cw.startDate ∧
    (ConsolidatedDashboard.markPaidFold cw playerId).weekdayMatches = cw.weekdayMatches ∧
    (∀ sm, (ConsolidatedDashboard.markPaidFold cw playerId).saturdayMatch = some sm →
      ∀ p ∈ sm.payments, p.playerId = playerId →
        p.amountPaid = p.amountDue ∧ p.status = PaymentStatus.paid) ∧
    (∀ sm, (ConsolidatedDashboard.markPaidFold cw playerId).sundayMatch = some sm →
      ∀ p ∈ sm.payments, p.playerId = playerId →
        p.amountPaid = p.amountDue ∧ p.status = PaymentStatus.paid) := by
  obtain ⟨cid, cstart, csat, csun, cweek⟩ := cw
  unfold ConsolidatedDashboard.markPaidFold
  cases csat with
  | none =>
    cases csun with
    | none =>
      refine ⟨rfl, rfl, rfl, ?_, ?_⟩ <;> intro sm h <;> cases h
    | some su =>
      cases hfu : su.payments.find? (fun p => p.playerId == playerId) with
      | none =>
        have hg : getPlayerPayment su playerId = none := hfu
        simp only [Option.bind, Option.toList, hg, List.cons_append, List.nil_append, List.append_nil, List.foldl_nil]
        refine ⟨trivial, trivial, trivial, ?_, ?_⟩
        · intro sm h; cases h
        · intro sm h p hp hpid
          cases h
          exact absurd hpid (no_pid_payment hfu p hp)
      | some pu =>
        have hpu : pu.playerId = playerId := by simpa using List.find?_some hfu
        have hpu' : (pu.playerId == playerId) = true := by simpa using hpu
        have hg : getPlayerPayment su playerId = some pu := hfu
        simp only [Option.bind, Option.toList, hg, List.cons_append, List.nil_append, List.append_nil, List.foldl_cons,
          List.foldl_nil]
        unfold ConsolidatedDashboard.applyToggleUpdate
        dsimp only
        rw [hpu']
        simp only [if_true, hfu, beq_self_eq_true]
        refine ⟨trivial, trivial, trivial, ?_, ?_⟩
        · intro sm h; cases h
        · intro sm h p hp hpid
          cases h
          exact mem_map_subst_paid su.payments _ playerId rfl rfl p hp hpid
  | some sm0 =>
    cases hfs : sm0.payments.find? (fun p => p.playerId == playerId) with
    | none =>
      have hgs : getPlayerPayment sm0 playerId = none := hfs
      cases csun with
      | none =>
        simp only [Option.bind, Option.toList, hgs, List.cons_append, List.nil_append, List.append_nil, List.foldl_nil]
        refine ⟨trivial, trivial, trivial, ?_, ?_⟩
        · intro sm h p hp hpid
          cases h
          exact absurd hpid (no_pid_payment hfs p hp)
        · intro sm h; cases h
      | some su =>
        cases hfu : su.payments.find? (fun p => p.playerId == playerId) with
        | none =>
          have hgu : getPlayerPayment su playerId = none := hfu
          simp only [Option.bind, Option.toList, hgs, hgu, List.cons_append, List.nil_append, List.append_nil,
            List.foldl_nil]
          refine ⟨trivial, trivial, trivial, ?_, ?_⟩
          · intro sm h p hp hpid
            cases h
            exact absurd hpid (no_pid_payment hfs p hp)
          · intro sm h p hp hpid
            cases h
            exact absurd hpid (no_pid_payment hfu p hp)
        | some pu =>
          have hpu : pu.playerId = playerId := by simpa using List.find?_some hfu
          have hpu' : (pu.playerId == playerId) = true := by simpa using hpu
          have hgu : getPlayerPayment su playerId = some pu := hfu
          simp only [Option.bind, Option.toList, hgs, hgu, List.cons_append, List.nil_append, List.append_nil,
            List.foldl_cons, List.foldl_nil]
          unfold ConsolidatedDashboard.applyToggleUpdate
          dsimp only
          rw [hpu']
          simp only [if_true, hfs, hfu, beq_self_eq_true]
          refine ⟨trivial, trivial, trivial, ?_, ?_⟩
          · intro sm h p hp hpid
            cases h
            exact absurd hpid (no_pid_payment hfs p hp)
          · intro sm h p hp hpid
            cases h
            exact mem_map_subst_paid su.payments _ playerId rfl rfl p hp hpid
    | some ps =>
      have hps : ps.playerId = playerId := by simpa using List.find?_some hfs
      have hps' : (ps.playerId == playerId) = true := by simpa using hps
      have hgs : getPlayerPayment sm0 playerId = some ps := hfs
      cases csun with
      | none =>
        simp only [Option.bind, Option.toList, hgs, List.cons_append, List.nil_append, List.append_nil,
          List.foldl_cons, List.foldl_nil]
        unfold ConsolidatedDashboard.applyToggleUpdate
        dsimp only
        rw [hps']
        simp only [if_true, hfs, beq_self_eq_true]
        refine ⟨trivial, trivial, trivial, ?_, ?_⟩
        · intro sm h p hp hpid
          cases h
          exact mem_map_subst_paid sm0.payments _ playerId rfl rfl p hp hpid
        · intro sm h; cases h
      | some su =>
        cases hfu : su.payments.find? (fun p => p.playerId == playerId) with
        | none =>
          have hgu : getPlayerPayment su playerId = none := hfu
          simp only [Option.bind, Option.toList, hgs, hgu, List.cons_append, List.nil_append, List.append_nil,
            List.foldl_cons, List.foldl_nil]
          unfold ConsolidatedDashboard.applyToggleUpdate
          dsimp only
          rw [hps']
          simp only [if_true, hfs, hfu, beq_self_eq_true]
          refine ⟨trivial, trivial, trivial, ?_, ?_⟩
          · intro sm h p hp hpid
            cases h
            exact mem_map_subst_paid sm0.payments _ playerId rfl rfl p hp hpid
          · intro sm h p hp hpid
            cases h
            exact absurd hpid (no_pid_payment hfu p hp)
        | some pu =>
          have hpu : pu.playerId = playerId := by simpa using List.find?_some hfu
          have hpu' : (pu.playerId == playerId) = true := by simpa using hpu
          have hgu : getPlayerPayment su playerId = some pu := hfu
          have hfm := find?_map_subst sm0.payments
            { ps with amountPaid := ps.amountDue, status := PaymentStatus.paid }
            playerId hps ps hfs
          have hfmu := find?_map_subst su.payments
            { ps with amountPaid := ps.amountDue, status := PaymentStatus.paid }
            playerId hps pu hfu
          simp only [Option.bind, Option.toList, hgs, hgu, List.cons_append, List.nil_append, List.append_nil,
            List.foldl_cons, List.foldl_nil]
          unfold ConsolidatedDashboard.applyToggleUpdate
          dsimp only
          by_cases hid : (pu.id == ps.id) = true
          · have hid' : (ps.id == pu.id) = true :=
              beq_iff_eq.mpr (eq_of_beq hid).symm
            simp only [hps', hpu', if_true, hfs, hfu, hfm, hfmu,
              beq_self_eq_true, hid, hid', eq_self_iff_true]
            refine ⟨trivial, trivial, trivial, ?_, ?_⟩
            · intro sm h p hp hpid
              cases h
              exact mem_map_subst_paid _ _ playerId rfl rfl p hp hpid
            · intro sm h p hp hpid
              cases h
              exact mem_map_subst_paid _ _ playerId rfl rfl p hp hpid
          · have hne : pu.id ≠ ps.id := by simpa using hid
            have hid0 : (pu.id == ps.id) = false := beq_eq_false_iff_ne.mpr hne
            have hid' : (ps.id == pu.id) = false :=
              beq_eq_false_iff_ne.mpr (Ne.symm hne)
            simp only [hps', hpu', if_true, hfs, hfu, hfm,
              beq_self_eq_true, hid0, hid', eq_self_iff_true,
              Bool.false_eq_true, if_false]
            refine ⟨trivial, trivial, trivial, ?_, ?_⟩
            · intro sm h p hp hpid
              cases h
              exact mem_map_subst_paid _ _ playerId rfl rfl p hp hpid
            · intro sm h p hp hpid
              cases h
              exact mem_map_subst_paid _ _ playerId rfl rfl p hp hpid

/-- C2 (amended): when the player's aggregate status is not paid, the bulk
toggle marks the player's Saturday-match and Sunday-match payments of the
active weekend fully paid (amountPaid = amountDue, status paid) and zeroes
the player's base balance; the weekday matches of the active weekend — and
with them every weekday payment — are left completely unchanged. -/
theorem handleOverallPaymentToggle_markPaid_spec
    (appData : AppData) (playerId : String) (cw : Weekend) (player : Player)
    (hcw : getCurrentWeekend appData = some cw)
    (hplayer : appData.players.find? (fun p => p.id == playerId) = some player)
    (hnotpaid : (ConsolidatedDashboard.calculatePlayerPaymentRow appData player).status ≠
      PaymentStatus.paid) :
    ∃ result, ConsolidatedDashboard.handleOverallPaymentToggle appData playerId =
        some result ∧
      result.currentWeekendId = appData.currentWeekendId ∧
      (∀ p ∈ result.players, p.id = playerId → p.balance = 0) ∧
      result.weekends = appData.weekends.map
        (fun w => if w.id == cw.id then ConsolidatedDashboard.markPaidFold cw playerId
          else w) ∧
      (ConsolidatedDashboard.markPaidFold cw playerId).id = cw.id ∧
      (ConsolidatedDashboard.markPaidFold cw playerId).startDate = cw.startDate ∧
      (ConsolidatedDashboard.markPaidFold cw playerId).weekdayMatches =
        cw.weekdayMatches ∧
      (∀ sm, (ConsolidatedDashboard.markPaidFold cw playerId).saturdayMatch = some sm →
        ∀ p ∈ sm.payments, p.playerId = playerId →
          p.amountPaid = p.amountDue ∧ p.status = PaymentStatus.paid) ∧
      (∀ sm, (ConsolidatedDashboard.markPaidFold cw playerId).sundayMatch = some sm →
        ∀ p ∈ sm.payments, p.playerId = playerId →
          p.amountPaid = p.amountDue ∧ p.status = PaymentStatus.paid) := by
  obtain ⟨h1, h2, h3, h4, h5⟩ := markPaidFold_spec cw playerId
  have hb : ((ConsolidatedDashboard.calculatePlayerPaymentRow appData player).status ==
      PaymentStatus.paid) = false := beq_eq_false_iff_ne.mpr hnotpaid
  have htog : ConsolidatedDashboard.handleOverallPaymentToggle appData playerId =
      some { appData with
        weekends := appData.weekends.map
          (fun w => if w.id == cw.id then ConsolidatedDashboard.markPaidFold cw playerId
            else w)
        players := appData.players.map (fun p =>
          if p.id == playerId then { p with balance := 0 } else p) } := by
    unfold ConsolidatedDashboard.handleOverallPaymentToggle
    rw [hcw, hplayer]
    dsimp only
    rw [hb]
    simp only [Bool.false_eq_true, if_false]
    rfl
  refine ⟨_, htog, rfl, ?_, rfl, h1, h2, h3, h4, h5⟩
  intro p hp hpid
  obtain ⟨q, hq, hqe⟩ := List.mem_map.mp hp
  by_cases hqp : (q.id == playerId) = true
  · rw [if_pos hqp] at hqe
    rw [← hqe]
  · rw [if_neg hqp] at hqe
    rw [← hqe] at hpid
    exact absurd (beq_iff_eq.mpr hpid) hqp

/-- In the state `c2AppData`, player A's aggregate status is not paid. -/
theorem c2_row_not_paid :
    (ConsolidatedDashboard.calculatePlayerPaymentRow c2AppData c2Player).status ≠
      PaymentStatus.paid := by
  unfold ConsolidatedDashboard.calculatePlayerPaymentRow
  rw [show getCurrentWeekend c2AppData = some c2Weekend from rfl]
  dsimp only
  split_ifs with hA hB
  · exfalso
    revert hA
    show ¬ ((100 : ℚ) + (0 - 0) ≤ 0)
    norm_num
  · decide
  · decide

/-- Counterexample to C2 as stated: running the mark-paid path on
`c2AppData` leaves player A's weekday payment pending with nothing paid. -/
theorem handleOverallPaymentToggle_weekday_counterexample :
    (ConsolidatedDashboard.calculatePlayerPaymentRow c2AppData c2Player).status ≠
      PaymentStatus.paid ∧
    ∃ result, ConsolidatedDashboard.handleOverallPaymentToggle c2AppData "A" =
        some result ∧
      ∃ w ∈ result.weekends, ∃ m ∈ w.weekdayMatches, ∃ p ∈ m.payments,
        p.playerId = "A" ∧
        ¬ (p.amountPaid = p.amountDue ∧ p.status = PaymentStatus.paid) := by
  refine ⟨c2_row_not_paid, ?_⟩
  have hb : ((ConsolidatedDashboard.calculatePlayerPaymentRow c2AppData c2Player).status ==
      PaymentStatus.paid) = false := beq_eq_false_iff_ne.mpr c2_row_not_paid
  unfold ConsolidatedDashboard.handleOverallPaymentToggle
  rw [show getCurrentWeekend c2AppData = some c2Weekend from rfl]
  rw [show c2AppData.players.find? (fun p => p.id == "A") = some c2Player from rfl]
  dsimp only
  rw [hb]
  simp only [Bool.false_eq_true, if_false]
  refine ⟨_, rfl, c2Weekend, by decide, c2WeekdayMatch, by decide,
    c2WeekdayPayment, by decide, by decide, by decide⟩

/-- Witness for the amended C2 at the concrete state `c2AppData`. -/
theorem handleOverallPaymentToggle_markPaid_spec_witness :
    getCurrentWeekend c2AppData = some c2Weekend ∧
    c2AppData.players.find? (fun p => p.id == "A") = some c2Player ∧
    (ConsolidatedDashboard.calculatePlayerPaymentRow c2AppData c2Player).status ≠
      PaymentStatus.paid ∧
    ∃ result, ConsolidatedDashboard.handleOverallPaymentToggle c2AppData "A" =
        some result ∧
      result.currentWeekendId = c2AppData.currentWeekendId ∧
      (∀ p ∈ result.players, p.id = "A" → p.balance = 0) ∧
      result.weekends = c2AppData.weekends.map
        (fun w => if w.id == c2Weekend.id then
          ConsolidatedDashboard.markPaidFold c2Weekend "A" else w) ∧
      (ConsolidatedDashboard.markPaidFold c2Weekend "A").id = c2Weekend.id ∧
      (ConsolidatedDashboard.markPaidFold c2Weekend "A").startDate =
        c2Weekend.startDate ∧
      (ConsolidatedDashboard.markPaidFold c2Weekend "A").weekdayMatches =
        c2Weekend.weekdayMatches ∧
      (∀ sm, (ConsolidatedDashboard.markPaidFold c2Weekend "A").saturdayMatch =
          some sm →
        ∀ p ∈ sm.payments, p.playerId = "A" →
          p.amountPaid = p.amountDue ∧ p.status = PaymentStatus.paid) ∧
      (∀ sm, (ConsolidatedDashboard.markPaidFold c2Weekend "A").sundayMatch =
          some sm →
        ∀ p ∈ sm.payments, p.playerId = "A" →
          p.amountPaid = p.amountDue ∧ p.status = PaymentStatus.paid) :=
  ⟨rfl, rfl, c2_row_not_paid,
    handleOverallPaymentToggle_markPaid_spec c2AppData "A" c2Weekend c2Player
      rfl rfl c2_row_not_paid⟩
